import Mathlib

/-!
# Verification of the swaption-vol-table core (USOSFR-RV-Analytics)

Shallow embedding of the time-series statistics engine in
`src/modules/swaption_vol_table.py`, `src/modules/get_swaption_table.py`,
and the realized-vol helper in `src/volatility.py`, together with proofs of
the behavioural claims about it.

Modelling conventions:
* dates are `ℕ` (only their ordering matters);
* float values are `ℚ` (exact arithmetic; pandas `NaN` is `Option.none`);
* a pandas `DataFrame` of observations is a `List` of records;
* `groupby` over a key is: the list of distinct keys (first-occurrence
  `dedup`, then sorted ascending, as pandas sorts group keys) paired with
  the date-sorted sub-list of records carrying that key;
* pandas `Series.std` (ddof = 1) is represented by the exact sample
  *variance* (`sampleVar`, a rational); the displayed standard deviation is
  `Real.sqrt` of it, applied by the projection `annualizedVol`.  The table
  rows therefore store the exact rational variance for each realized-vol
  window, and the annualized-vol / daily-vol display columns of the Python
  table are the `Real.sqrt`-projections of the stored rational fields.
-/

set_option maxRecDepth 8000

deriving instance DecidableEq for Except

/-- One implied-vol observation: a row of `vol_data`
(`date`, `expiry`, `tenor`, `implied_bpvol_annualized`). -/
structure VolObs where
  date : ℕ
  expiry : String
  tenor : ℕ
  value : ℚ
deriving DecidableEq, Repr

/-- One swap-rate observation: a row of `swap_rates`
(`date`, `tenor`, `swap_rate`). -/
structure RateObs where
  date : ℕ
  tenor : ℕ
  rate : ℚ
deriving DecidableEq, Repr

/-- Insert an element into a list, before the first element `y` for which
`le x y` holds.  Used by the insertion sort `sortLe`. -/
def insertLe (le : α → α → Bool) (x : α) : List α → List α
  | [] => [x]
  | y :: ys => if le x y then x :: y :: ys else y :: insertLe le x ys

/-- Stable insertion sort (models pandas `sort_values` / `sort_index`). -/
def sortLe (le : α → α → Bool) : List α → List α
  | [] => []
  | x :: xs => insertLe le x (sortLe le xs)

/-- Python's `max` over a list, `none` on the empty list
(also pandas `Series.max()` which is `NaN` on an empty series). -/
def pyMax [Max α] : List α → Option α
  | [] => none
  | x :: xs => some (xs.foldl Max.max x)

/-- Python's `min` over a list, `none` on the empty list. -/
def pyMin [Min α] : List α → Option α
  | [] => none
  | x :: xs => some (xs.foldl Min.min x)

/-- `vol_data[vol_data['date'] <= as_of_date]` -/
def cutVol (asOf : ℕ) (l : List VolObs) : List VolObs :=
  l.filter (fun o => o.date ≤ asOf)

/-- `swap_rates[swap_rates['date'] <= as_of_date]` -/
def cutRate (asOf : ℕ) (l : List RateObs) : List RateObs :=
  l.filter (fun o => o.date ≤ asOf)

/-- Ascending order on group keys `(expiry, tenor)`, as produced by
`groupby(['expiry', 'tenor'])` (pandas sorts group keys). -/
def volKeyLe (a b : String × ℕ) : Bool :=
  match compare a.1 b.1 with
  | .lt => true
  | .gt => false
  | .eq => a.2 ≤ b.2

/-- The distinct `(expiry, tenor)` keys of a vol-observation list, in the
ascending order in which `groupby(['expiry', 'tenor'])` iterates them. -/
def volKeys (l : List VolObs) : List (String × ℕ) :=
  sortLe volKeyLe ((l.map (fun o => (o.expiry, o.tenor))).dedup)

/-- The value series of one `(expiry, tenor)` group, sorted ascending by
date: `group.set_index('date')['implied_bpvol_annualized'].sort_index()`. -/
def seriesOf (l : List VolObs) (e : String) (t : ℕ) : List ℚ :=
  (sortLe (fun a b => a.date ≤ b.date)
    (l.filter (fun o => o.expiry == e && o.tenor == t))).map (·.value)

/-- The per-key implied-vol series the pipeline works with: observations of
the key, truncated to `date ≤ as_of_date`, sorted ascending by date. -/
def seriesFor (vols : List VolObs) (asOf : ℕ) (e : String) (t : ℕ) : List ℚ :=
  seriesOf (cutVol asOf vols) e t

/-- `v.getD i 0`: the `i`-th element of a series (positional `iloc`). -/
def nthQ (v : List ℚ) (i : ℕ) : ℚ := v.getD i 0

/-- `vol_series.tail(20)`: the trailing 20 observations (fewer if the
series is shorter). -/
def tail20 (v : List ℚ) : List ℚ := v.drop (v.length - 20)

/-- One row of the implied-vol metrics frame produced by
`compute_implied_vol_changes`. -/
structure ImpliedRow where
  expiry : String
  tenor : ℕ
  annCurrent : ℚ
  ann1dChg : Option ℚ
  ann1wChg : Option ℚ
  ann1mChg : Option ℚ
  ann20dHigh : Option ℚ
  ann20dLow : Option ℚ
deriving DecidableEq, Repr

/-- The metrics of one `(expiry, tenor)` group with value series `v`
(the loop body of `compute_implied_vol_changes`); `iloc[-k]` on a series of
length `n` is position `n - k`. -/
def impliedRowOf (e : String) (t : ℕ) (v : List ℚ) : ImpliedRow :=
  { expiry := e
    tenor := t
    annCurrent := nthQ v (v.length - 1)
    ann1dChg :=
      if 2 ≤ v.length then some (nthQ v (v.length - 1) - nthQ v (v.length - 2)) else none
    ann1wChg :=
      if 6 ≤ v.length then some (nthQ v (v.length - 1) - nthQ v (v.length - 6)) else none
    ann1mChg :=
      if 21 ≤ v.length then some (nthQ v (v.length - 1) - nthQ v (v.length - 21)) else none
    ann20dHigh := pyMax (tail20 v)
    ann20dLow := pyMin (tail20 v) }

/-- `compute_implied_vol_changes`: filter to `date ≤ as_of_date`, group by
`(expiry, tenor)`, skip groups with fewer than 5 rows, emit one metrics row
per remaining group. -/
def computeImpliedVolChanges (vols : List VolObs) (asOf : ℕ) : List ImpliedRow :=
  let data := cutVol asOf vols
  (volKeys data).filterMap (fun k =>
    let v := seriesOf data k.1 k.2
    if v.length < 5 then none else some (impliedRowOf k.1 k.2 v))

example :
    computeImpliedVolChanges
      [⟨0, "1M", 2, 10⟩, ⟨1, "1M", 2, 11⟩, ⟨2, "1M", 2, 9⟩, ⟨3, "1M", 2, 12⟩,
       ⟨4, "1M", 2, 14⟩, ⟨9, "1M", 2, 99⟩] 4 =
      [{ expiry := "1M", tenor := 2, annCurrent := 14, ann1dChg := some 2,
         ann1wChg := none, ann1mChg := none,
         ann20dHigh := some 14, ann20dLow := some 9 }] := by
  with_unfolding_all decide

/-! ## Realized-vol metrics (`compute_realized_vol`) -/

/-- The configured realized-vol windows
(`REALIZED_VOL_WINDOWS` in `src/config.py`, also the default `windows`
argument of `compute_realized_vol`). -/
def REALIZED_VOL_WINDOWS : List ℕ := [10, 20, 60, 90, 120, 180]

/-- `max(windows)` in `compute_realized_vol`. -/
def maxWindow : ℕ := REALIZED_VOL_WINDOWS.foldl max 0

/-- `(rate_series - rate_series.shift(1)) * 100`: first differences scaled
from percent to basis points; the first entry is `NaN` (`none`). -/
def bpDiffs (v : List ℚ) : List (Option ℚ) :=
  match v with
  | [] => []
  | _ :: _ => none :: ((v.zip v.tail).map (fun p => some ((p.2 - p.1) * 100)))

/-- Exact sample variance with `ddof = 1` (the square of pandas
`Series.std`); only used under a guard `2 ≤ xs.length`. -/
def sampleVar (xs : List ℚ) : ℚ :=
  let n : ℚ := (xs.length : ℚ)
  let m : ℚ := xs.sum / n
  (xs.map (fun x => (x - m) ^ 2)).sum / (n - 1)

/-- Entry `i` of `series.rolling(window=w, min_periods=minp).std()`: the
window is positions `max(0, i-w+1) .. i`; the result is defined when the
window holds at least `minp` non-null values (and at least 2, since pandas
`std` with `ddof = 1` of a single value is `NaN`), and is represented by
the exact sample variance of those values. -/
def rollingStdVarAt (diffs : List (Option ℚ)) (w minp i : ℕ) : Option ℚ :=
  let xs := ((diffs.take (i + 1)).drop (i + 1 - w)).filterMap id
  if minp ≤ xs.length ∧ 2 ≤ xs.length then some (sampleVar xs) else none

/-- The per-window body of `compute_realized_vol`: if
`len(daily_changes_bp) >= window`, the last entry (`iloc[-1]`) of the
rolling std with `min_periods = window // 2`, else `NaN`.  Represented as
the variance; the reported value is `sqrt` of it times `sqrt 252`
(see `annualizedVol`). -/
def realizedVarForWindow (v : List ℚ) (w : ℕ) : Option ℚ :=
  let diffs := bpDiffs v
  if w ≤ diffs.length then rollingStdVarAt diffs w (w / 2) (diffs.length - 1)
  else none

/-- One row of the realized-vol frame, keyed by tenor, carrying the
variance representation of `realized_vol_{w}d` for each configured
window. -/
structure RealizedRow where
  tenor : ℕ
  var10 : Option ℚ
  var20 : Option ℚ
  var60 : Option ℚ
  var90 : Option ℚ
  var120 : Option ℚ
  var180 : Option ℚ
deriving DecidableEq, Repr

/-- The realized-vol row of one tenor group with rate series `v`
(the loop body of `compute_realized_vol`, one field per window of
`REALIZED_VOL_WINDOWS`). -/
def realizedRowOf (t : ℕ) (v : List ℚ) : RealizedRow :=
  { tenor := t
    var10 := realizedVarForWindow v 10
    var20 := realizedVarForWindow v 20
    var60 := realizedVarForWindow v 60
    var90 := realizedVarForWindow v 90
    var120 := realizedVarForWindow v 120
    var180 := realizedVarForWindow v 180 }

/-- The distinct tenors of a rate-observation list, ascending
(`groupby('tenor')` iteration order). -/
def rateKeys (l : List RateObs) : List ℕ :=
  sortLe (fun a b => a ≤ b) ((l.map (·.tenor)).dedup)

/-- The rate series of one tenor, sorted ascending by date
(`group.set_index('date')['swap_rate'].sort_index()`). -/
def rateSeriesOf (l : List RateObs) (t : ℕ) : List ℚ :=
  (sortLe (fun a b => a.date ≤ b.date) (l.filter (fun o => o.tenor == t))).map (·.rate)

/-- `compute_realized_vol`: filter to `date ≤ as_of_date`, group by tenor,
skip groups with fewer than `max(windows)` rows, emit one realized-vol row
per remaining group. -/
def computeRealizedVol (rates : List RateObs) (asOf : ℕ) : List RealizedRow :=
  let data := cutRate asOf rates
  (rateKeys data).filterMap (fun t =>
    let v := rateSeriesOf data t
    if v.length < maxWindow then none else some (realizedRowOf t v))

/-! ## Mover flags (`add_highlighting_flags`) -/

/-- The grid configuration (`OPTION_TENORS`, `SWAP_TENORS` in
`src/config.py`). -/
def OPTION_TENORS : List String := ["1M", "3M", "6M", "1Y", "2Y"]

/-- Tenor filter list of the grid. -/
def SWAP_TENORS : List ℕ := [2, 5, 10, 30]

/-- The absolute period-changes inside a trailing lookback window:
`for i in range(len(v) - lookback, len(v)): if i >= period:
abs(v[i] - v[i-period])`. -/
def absChangesWindow (v : List ℚ) (lookback period : ℕ) : List ℚ :=
  (List.range' (v.length - lookback) lookback).filterMap (fun i =>
    if period ≤ i then some |nthQ v i - nthQ v (i - period)| else none)

/-- The tail of one mover detection: with `m` the window maximum (`None`
when the window is empty) and `cur` the current period-change read from
the already-computed table row, the flag becomes true iff both exist and
`|cur|` equals `m` with exact equality (`current_1d_change ==
max_1d_change` after the `pd.isna` guard); otherwise the flag keeps its
initialized `False`. -/
def moverFlagAux (m : Option ℚ) (cur : Option ℚ) : Bool :=
  match m, cur with
  | some m, some c => decide (|c| = m)
  | _, _ => false

/-- One mover detection on a series `v`: inside the
`len(vol_series) >= minLen` guard, compare the current period-change
against the maximum absolute period-change of the trailing lookback
window. -/
def moverFlag (v : List ℚ) (minLen lookback period : ℕ) (cur : Option ℚ) : Bool :=
  if minLen ≤ v.length then
    moverFlagAux (pyMax (absChangesWindow v lookback period)) cur
  else false

/-- One row of the final table.  The rational fields are exact; the three
`implied_vol_daily_*` columns and the six `realized_vol_{w}d` columns of
the Python table are the `Real.sqrt`-projections `dailyOf` /
`annualizedVol` of the stored rational fields. -/
structure TableRow where
  expiry : String
  tenor : ℕ
  termTenor : String
  annCurrent : ℚ
  ann1dChg : Option ℚ
  ann1wChg : Option ℚ
  ann1mChg : Option ℚ
  ann20dHigh : Option ℚ
  ann20dLow : Option ℚ
  var10 : Option ℚ
  var20 : Option ℚ
  var60 : Option ℚ
  var90 : Option ℚ
  var120 : Option ℚ
  var180 : Option ℚ
  is1dMover : Bool
  is1wMover : Bool
  is1mMover : Bool
deriving DecidableEq, Repr

/-- `implied_vol_daily_* = implied_vol_ann_* / sqrt(252)`. -/
noncomputable def dailyOf (q : ℚ) : ℝ := (q : ℝ) / Real.sqrt 252

/-- `realized_vol_{w}d = rolling_std.iloc[-1] * sqrt(252)`, recovered from
the stored variance: `sqrt(var) * sqrt(252)` (`NaN` maps to `NaN`). -/
noncomputable def annualizedVol (o : Option ℚ) : Option ℝ :=
  o.map (fun q => Real.sqrt (q : ℝ) * Real.sqrt 252)

/-- Joining one implied row with its (optional) realized match:
the merged row keeps every implied column, takes the realized columns from
the match (`NaN` when there is none), gets the display label
`expiry + ' × ' + str(tenor) + 'Y'`, and the three mover flags initialized
`False`. -/
def rowOfJoin (ir : ImpliedRow) (rr : Option RealizedRow) : TableRow :=
  { expiry := ir.expiry
    tenor := ir.tenor
    termTenor := ir.expiry ++ " × " ++ toString ir.tenor ++ "Y"
    annCurrent := ir.annCurrent
    ann1dChg := ir.ann1dChg
    ann1wChg := ir.ann1wChg
    ann1mChg := ir.ann1mChg
    ann20dHigh := ir.ann20dHigh
    ann20dLow := ir.ann20dLow
    var10 := rr.bind (·.var10)
    var20 := rr.bind (·.var20)
    var60 := rr.bind (·.var60)
    var90 := rr.bind (·.var90)
    var120 := rr.bind (·.var120)
    var180 := rr.bind (·.var180)
    is1dMover := false
    is1wMover := false
    is1mMover := false }

/-- `implied_df.merge(realized_df, on='tenor', how='left')`: each implied
row is paired with every realized row of equal tenor, or with `NaN`
realized columns when there is no match. -/
def mergeLeft (implied : List ImpliedRow) (realized : List RealizedRow) :
    List TableRow :=
  implied.flatMap (fun ir =>
    match realized.filter (fun rr => rr.tenor == ir.tenor) with
    | [] => [rowOfJoin ir none]
    | ms => ms.map (fun rr => rowOfJoin ir (some rr)))

/-- Reset a row's three mover flags to `False`
(the flag-column initialization in `add_highlighting_flags`). -/
def clearFlags (r : TableRow) : TableRow :=
  { r with is1dMover := false, is1wMover := false, is1mMover := false }

/-- Evaluate the three detections of `add_highlighting_flags` against the
series `v` of the row's key, reading each current change from the table
row itself: 1-day change over a 10-observation lookback (needs 11 points),
1-week (5-observation) change over a 20-observation lookback (needs 26),
1-month (20-observation) change over a 120-observation lookback
(needs 141). -/
def setFlags (v : List ℚ) (r : TableRow) : TableRow :=
  { r with
    is1dMover := moverFlag v 11 10 1 r.ann1dChg
    is1wMover := moverFlag v 26 20 5 r.ann1wChg
    is1mMover := moverFlag v 141 120 20 r.ann1mChg }

/-- Replace the first element satisfying `p` by its image under `f`
(`table.loc[row_idx[0], ...] = ...` touches exactly the first matching
row; with no match the table is unchanged). -/
def updateFirst (p : α → Bool) (f : α → α) : List α → List α
  | [] => []
  | x :: xs => if p x then f x :: xs else x :: updateFirst p f xs

/-- The body of the group loop of `add_highlighting_flags` for one key:
groups with fewer than 21 rows are skipped (`if len(group) < 21:
continue`); otherwise the first table row with that key (if any) gets its
flags evaluated. -/
def applyFlagsForKey (data : List VolObs) (tbl : List TableRow)
    (k : String × ℕ) : List TableRow :=
  let v := seriesOf data k.1 k.2
  if v.length < 21 then tbl
  else updateFirst (fun r => r.expiry == k.1 && r.tenor == k.2) (setFlags v) tbl

/-- `add_highlighting_flags`: re-filter the vol data to
`date ≤ as_of_date`, initialize all three flags to `False`, then loop over
the `(expiry, tenor)` groups updating the matching table row. -/
def addHighlightingFlags (tbl : List TableRow) (vols : List VolObs)
    (asOf : ℕ) : List TableRow :=
  let data := cutVol asOf vols
  (volKeys data).foldl (applyFlagsForKey data) (tbl.map clearFlags)

/-- `expiry_order = {exp: i for i, exp in enumerate(OPTION_TENORS)}`. -/
def expiryRank (e : String) : ℕ := OPTION_TENORS.indexOf e

/-- `sort_values(['expiry_order', 'tenor'])` on the final table. -/
def tableLe (a b : TableRow) : Bool :=
  expiryRank a.expiry < expiryRank b.expiry ||
    (expiryRank a.expiry == expiryRank b.expiry && a.tenor ≤ b.tenor)

/-- The crash-free remainder of `build_swaption_vol_table` (the portion
from the merge through the final sort, reached only when both
intermediate frames are non-empty): left join on tenor, grid filter
(`expiry.isin(OPTION_TENORS)`, `tenor.isin(SWAP_TENORS)`), mover flags,
final ordering by configured expiry rank then ascending tenor.  (The
`implied_vol_daily_*` column additions and the column reordering of the
Python code do not alter any row content here: daily columns are the
projections `dailyOf` of the stored annualized fields, and rows are
records, not ordered columns.) -/
def buildTableRows (vols : List VolObs) (rates : List RateObs)
    (asOf : ℕ) : List TableRow :=
  let implied := computeImpliedVolChanges vols asOf
  let realized := computeRealizedVol rates asOf
  let merged := mergeLeft implied realized
  let gridded :=
    (merged.filter (fun r => OPTION_TENORS.contains r.expiry)).filter
      (fun r => SWAP_TENORS.contains r.tenor)
  let flagged := addHighlightingFlags gridded vols asOf
  sortLe tableLe flagged

/-- `build_swaption_vol_table` as the caller observes it.  Two in-range
inputs make the Python function raise instead of returning a table:
* when no `(expiry, tenor)` key has 5 observations at/before the
  as-of-date, `compute_implied_vol_changes` returns `pd.DataFrame([])`
  with no columns, and the daily-column addition
  `implied_df['implied_vol_ann_current']` raises `KeyError`;
* when no tenor has `max(windows)` rate observations at/before the
  as-of-date, `compute_realized_vol` returns a column-less frame and
  `implied_df.merge(realized_df, on='tenor', how='left')` raises
  `KeyError: 'tenor'`.
Otherwise the function returns the rows of `buildTableRows`. -/
def buildSwaptionVolTable (vols : List VolObs) (rates : List RateObs)
    (asOf : ℕ) : Except String (List TableRow) :=
  if computeImpliedVolChanges vols asOf = [] then
    Except.error "KeyError: implied_vol_ann_current"
  else if computeRealizedVol rates asOf = [] then
    Except.error "KeyError: tenor"
  else Except.ok (buildTableRows vols rates asOf)

/-- `get_swaption_table` (date validation; the loaded universe is the
argument): rejects an as-of-date before the minimum or after the maximum
date of the implied-vol observation set, otherwise invokes the build and
propagates its outcome — including the build's `KeyError`s.  An empty vol
set is the loader's `"No vol data loaded"` failure. -/
def getSwaptionTable (vols : List VolObs) (rates : List RateObs)
    (asOf : ℕ) : Except String (List TableRow) :=
  match pyMin (vols.map (·.date)), pyMax (vols.map (·.date)) with
  | some mn, some mx =>
    if asOf < mn then .error "Date is before earliest data"
    else if mx < asOf then .error "Date is after latest data"
    else buildSwaptionVolTable vols rates asOf
  | _, _ => .error "No vol data loaded"

/-- The build returns a table exactly when both intermediate frames are
non-empty. -/
theorem buildSwaptionVolTable_ok (vols : List VolObs) (rates : List RateObs)
    (asOf : ℕ) (h1 : computeImpliedVolChanges vols asOf ≠ [])
    (h2 : computeRealizedVol rates asOf ≠ []) :
    buildSwaptionVolTable vols rates asOf =
      Except.ok (buildTableRows vols rates asOf) := by
  rw [buildSwaptionVolTable, if_neg h1, if_neg h2]

/-- A successful build's rows are the rows of `buildTableRows`. -/
theorem eq_rows_of_ok (vols : List VolObs) (rates : List RateObs)
    (asOf : ℕ) (tbl : List TableRow)
    (h : buildSwaptionVolTable vols rates asOf = Except.ok tbl) :
    tbl = buildTableRows vols rates asOf := by
  rw [buildSwaptionVolTable] at h
  by_cases h1 : computeImpliedVolChanges vols asOf = []
  · rw [if_pos h1] at h
    cases h
  · rw [if_neg h1] at h
    by_cases h2 : computeRealizedVol rates asOf = []
    · rw [if_pos h2] at h
      cases h
    · rw [if_neg h2] at h
      injection h with h
      exact h.symm

/-! ## Basic lemmas about the list toolbox -/

theorem insertLe_perm (le : α → α → Bool) (x : α) (l : List α) :
    (insertLe le x l).Perm (x :: l) := by
  induction l with
  | nil => simp [insertLe]
  | cons y ys ih =>
    by_cases h : le x y
    · simp [insertLe, h]
    · simp only [insertLe, h, Bool.false_eq_true, if_false]
      exact (ih.cons y).trans (List.Perm.swap x y ys)

theorem sortLe_perm (le : α → α → Bool) (l : List α) :
    (sortLe le l).Perm l := by
  induction l with
  | nil => simp [sortLe]
  | cons x xs ih =>
    exact (insertLe_perm le x (sortLe le xs)).trans (ih.cons x)

theorem sortLe_length (le : α → α → Bool) (l : List α) :
    (sortLe le l).length = l.length :=
  (sortLe_perm le l).length_eq

theorem mem_sortLe (le : α → α → Bool) (l : List α) (a : α) :
    a ∈ sortLe le l ↔ a ∈ l :=
  (sortLe_perm le l).mem_iff

theorem sortLe_nodup (le : α → α → Bool) (l : List α) (h : l.Nodup) :
    (sortLe le l).Nodup :=
  ((sortLe_perm le l).nodup_iff).mpr h

theorem foldl_max_le_init [LinearOrder α] (l : List α) (x : α) :
    x ≤ l.foldl Max.max x := by
  induction l generalizing x with
  | nil => simp
  | cons y ys ih => exact le_trans (le_max_left x y) (ih (max x y))

theorem foldl_max_le_mem [LinearOrder α] (l : List α) (x a : α) (ha : a ∈ l) :
    a ≤ l.foldl Max.max x := by
  induction l generalizing x with
  | nil => cases ha
  | cons y ys ih =>
    rcases List.mem_cons.mp ha with rfl | ha
    · exact le_trans (le_max_right x a) (foldl_max_le_init ys (max x a))
    · exact ih (max x y) ha

theorem foldl_max_mem [LinearOrder α] (l : List α) (x : α) :
    l.foldl Max.max x ∈ x :: l := by
  induction l generalizing x with
  | nil => simp
  | cons y ys ih =>
    have h := ih (max x y)
    simp only [List.foldl_cons]
    rcases List.mem_cons.mp h with h1 | h1
    · rcases max_choice x y with h2 | h2
      · rw [h1, h2]; exact List.mem_cons_self _ _
      · rw [h1, h2]; exact List.mem_cons_of_mem _ (List.mem_cons_self _ _)
    · exact List.mem_cons_of_mem _ (List.mem_cons_of_mem _ h1)

theorem pyMax_le [LinearOrder α] (l : List α) (m a : α)
    (hm : pyMax l = some m) (ha : a ∈ l) : a ≤ m := by
  cases l with
  | nil => cases ha
  | cons x xs =>
    simp only [pyMax, Option.some.injEq] at hm
    subst hm
    rcases List.mem_cons.mp ha with rfl | ha
    · exact foldl_max_le_init xs a
    · exact foldl_max_le_mem xs x a ha

theorem pyMax_mem [LinearOrder α] (l : List α) (m : α)
    (hm : pyMax l = some m) : m ∈ l := by
  cases l with
  | nil => simp [pyMax] at hm
  | cons x xs =>
    simp only [pyMax, Option.some.injEq] at hm
    subst hm
    exact foldl_max_mem xs x

theorem pyMax_isSome [Max α] (l : List α) (h : l ≠ []) :
    ∃ m, pyMax l = some m := by
  cases l with
  | nil => cases h rfl
  | cons x xs => exact ⟨xs.foldl Max.max x, rfl⟩

theorem foldl_min_le_init [LinearOrder α] (l : List α) (x : α) :
    l.foldl Min.min x ≤ x := by
  induction l generalizing x with
  | nil => simp
  | cons y ys ih => exact le_trans (ih (min x y)) (min_le_left x y)

theorem foldl_min_le_mem [LinearOrder α] (l : List α) (x a : α) (ha : a ∈ l) :
    l.foldl Min.min x ≤ a := by
  induction l generalizing x with
  | nil => cases ha
  | cons y ys ih =>
    rcases List.mem_cons.mp ha with rfl | ha
    · exact le_trans (foldl_min_le_init ys (min x a)) (min_le_right x a)
    · exact ih (min x y) ha

theorem pyMin_le [LinearOrder α] (l : List α) (m a : α)
    (hm : pyMin l = some m) (ha : a ∈ l) : m ≤ a := by
  cases l with
  | nil => cases ha
  | cons x xs =>
    simp only [pyMin, Option.some.injEq] at hm
    subst hm
    rcases List.mem_cons.mp ha with rfl | ha
    · exact foldl_min_le_init xs a
    · exact foldl_min_le_mem xs x a ha

theorem pyMin_isSome [Min α] (l : List α) (h : l ≠ []) :
    ∃ m, pyMin l = some m := by
  cases l with
  | nil => cases h rfl
  | cons x xs => exact ⟨xs.foldl Min.min x, rfl⟩

/-! ## Series-extractor lemmas -/

theorem seriesOf_length (l : List VolObs) (e : String) (t : ℕ) :
    (seriesOf l e t).length =
      (l.filter (fun o => o.expiry == e && o.tenor == t)).length := by
  simp [seriesOf, sortLe_length]

theorem mem_volKeys (l : List VolObs) (k : String × ℕ) :
    k ∈ volKeys l ↔ ∃ o ∈ l, o.expiry = k.1 ∧ o.tenor = k.2 := by
  simp only [volKeys, mem_sortLe, List.mem_dedup, List.mem_map]
  constructor
  · rintro ⟨o, ho, rfl⟩
    exact ⟨o, ho, rfl, rfl⟩
  · rintro ⟨o, ho, h1, h2⟩
    exact ⟨o, ho, by cases k; simp_all⟩

theorem volKeys_nodup (l : List VolObs) : (volKeys l).Nodup :=
  sortLe_nodup _ _ (List.nodup_dedup _)

theorem mem_volKeys_of_series_ne_nil (l : List VolObs) (e : String) (t : ℕ)
    (h : seriesOf l e t ≠ []) : (e, t) ∈ volKeys l := by
  rcases List.exists_mem_of_ne_nil _ h with ⟨q, hq⟩
  simp only [seriesOf, List.mem_map, mem_sortLe, List.mem_filter] at hq
  rcases hq with ⟨o, ⟨ho, hkey⟩, _⟩
  rw [Bool.and_eq_true, beq_iff_eq, beq_iff_eq] at hkey
  exact (mem_volKeys l (e, t)).mpr ⟨o, ho, hkey.1, hkey.2⟩

theorem impliedRowOf_expiry (e : String) (t : ℕ) (v : List ℚ) :
    (impliedRowOf e t v).expiry = e := rfl

theorem impliedRowOf_tenor (e : String) (t : ℕ) (v : List ℚ) :
    (impliedRowOf e t v).tenor = t := rfl

/-- Characterization of the rows of `compute_implied_vol_changes`: exactly
one row per `(expiry, tenor)` key whose truncated series has at least 5
points, carrying the metrics of that series. -/
theorem mem_computeImpliedVolChanges (vols : List VolObs) (asOf : ℕ)
    (r : ImpliedRow) :
    r ∈ computeImpliedVolChanges vols asOf ↔
      ∃ e t, 5 ≤ (seriesFor vols asOf e t).length ∧
        r = impliedRowOf e t (seriesFor vols asOf e t) := by
  simp only [computeImpliedVolChanges, List.mem_filterMap]
  constructor
  · rintro ⟨k, hk, hr⟩
    by_cases h5 : (seriesOf (cutVol asOf vols) k.1 k.2).length < 5
    · simp [h5] at hr
    · simp only [h5, if_false, Option.some.injEq] at hr
      exact ⟨k.1, k.2, not_lt.mp h5, hr.symm⟩
  · rintro ⟨e, t, h5, rfl⟩
    refine ⟨(e, t), ?_, ?_⟩
    · apply mem_volKeys_of_series_ne_nil
      intro hnil
      rw [seriesFor, hnil] at h5
      simp at h5
    · simp only [seriesFor] at h5 ⊢
      rw [if_neg (not_lt.mpr h5)]

/-! ## Claims C5 and C9: implied-vol metrics stage -/

theorem tail20_getElem_last (v : List ℚ) (h : 1 ≤ v.length) :
    (tail20 v).getD ((v.length - 1) - (v.length - 20)) 0 = nthQ v (v.length - 1) := by
  rw [nthQ, List.getD_eq_getElem?_getD, List.getD_eq_getElem?_getD, tail20,
    List.getElem?_drop]
  congr 2
  omega

theorem nthQ_last_mem_tail20 (v : List ℚ) (h : 1 ≤ v.length) :
    nthQ v (v.length - 1) ∈ tail20 v := by
  have h2 : (v.length - 1) - (v.length - 20) < (tail20 v).length := by
    simp only [tail20, List.length_drop]; omega
  have h3 := tail20_getElem_last v h
  rw [List.getD_eq_getElem _ 0 h2] at h3
  rw [← h3]
  exact List.getElem_mem h2

/-- Sample vols used by witness theorems: one `(1M, 2Y)` series of six
observations, the last of which is after the as-of-date 4. -/
def demoVols : List VolObs :=
  [⟨0, "1M", 2, 10⟩, ⟨1, "1M", 2, 11⟩, ⟨2, "1M", 2, 9⟩, ⟨3, "1M", 2, 12⟩,
   ⟨4, "1M", 2, 14⟩, ⟨9, "1M", 2, 99⟩]

/-- The implied-metrics row that `demoVols` yields as of date 4. -/
def demoImpliedRow : ImpliedRow :=
  { expiry := "1M", tenor := 2, annCurrent := 14, ann1dChg := some 2,
    ann1wChg := none, ann1mChg := none,
    ann20dHigh := some 14, ann20dLow := some 9 }

/-- **C5** (trailing-change arithmetic): every row emitted by
`compute_implied_vol_changes` carries, over its own series `v` of `N`
points, `Δ1d = v[N-1] − v[N-2]` when `N ≥ 2` (else undefined),
`Δ1w = v[N-1] − v[N-6]` when `N ≥ 6` (else undefined), and
`Δ1m = v[N-1] − v[N-21]` when `N ≥ 21` (else undefined). -/
theorem trailing_change_arithmetic (vols : List VolObs) (asOf : ℕ)
    (r : ImpliedRow) (hr : r ∈ computeImpliedVolChanges vols asOf) :
    (r.ann1dChg =
      if 2 ≤ (seriesFor vols asOf r.expiry r.tenor).length then
        some (nthQ (seriesFor vols asOf r.expiry r.tenor)
            ((seriesFor vols asOf r.expiry r.tenor).length - 1) -
          nthQ (seriesFor vols asOf r.expiry r.tenor)
            ((seriesFor vols asOf r.expiry r.tenor).length - 2))
      else none) ∧
    (r.ann1wChg =
      if 6 ≤ (seriesFor vols asOf r.expiry r.tenor).length then
        some (nthQ (seriesFor vols asOf r.expiry r.tenor)
            ((seriesFor vols asOf r.expiry r.tenor).length - 1) -
          nthQ (seriesFor vols asOf r.expiry r.tenor)
            ((seriesFor vols asOf r.expiry r.tenor).length - 6))
      else none) ∧
    (r.ann1mChg =
      if 21 ≤ (seriesFor vols asOf r.expiry r.tenor).length then
        some (nthQ (seriesFor vols asOf r.expiry r.tenor)
            ((seriesFor vols asOf r.expiry r.tenor).length - 1) -
          nthQ (seriesFor vols asOf r.expiry r.tenor)
            ((seriesFor vols asOf r.expiry r.tenor).length - 21))
      else none) := by
  rcases (mem_computeImpliedVolChanges vols asOf r).mp hr with ⟨e, t, h5, rfl⟩
  rw [impliedRowOf_expiry, impliedRowOf_tenor]
  exact ⟨rfl, rfl, rfl⟩

/-- Witness for C5 at the concrete input `demoVols`, as of date 4. -/
theorem trailing_change_arithmetic_witness :
    demoImpliedRow ∈ computeImpliedVolChanges demoVols 4 ∧
    demoImpliedRow.ann1dChg =
      (if 2 ≤ (seriesFor demoVols 4 demoImpliedRow.expiry demoImpliedRow.tenor).length then
        some (nthQ (seriesFor demoVols 4 demoImpliedRow.expiry demoImpliedRow.tenor)
            ((seriesFor demoVols 4 demoImpliedRow.expiry demoImpliedRow.tenor).length - 1) -
          nthQ (seriesFor demoVols 4 demoImpliedRow.expiry demoImpliedRow.tenor)
            ((seriesFor demoVols 4 demoImpliedRow.expiry demoImpliedRow.tenor).length - 2))
      else none) := by
  have hmem : demoImpliedRow ∈ computeImpliedVolChanges demoVols 4 := by
    with_unfolding_all decide
  exact ⟨hmem, (trailing_change_arithmetic demoVols 4 demoImpliedRow hmem).1⟩

/-- **C9** (high/low bracketing): in every row emitted by the implied-vol
metrics stage the 20-period low and high are defined and bracket the
current level: `low ≤ current ≤ high`, hence `low ≤ high`. -/
theorem highlow_bracketing (vols : List VolObs) (asOf : ℕ) (r : ImpliedRow)
    (hr : r ∈ computeImpliedVolChanges vols asOf) :
    ∃ hi lo, r.ann20dHigh = some hi ∧ r.ann20dLow = some lo ∧
      lo ≤ r.annCurrent ∧ r.annCurrent ≤ hi ∧ lo ≤ hi := by
  rcases (mem_computeImpliedVolChanges vols asOf r).mp hr with ⟨e, t, h5, rfl⟩
  set v := seriesFor vols asOf e t with hv
  have h1 : 1 ≤ v.length := le_trans (by norm_num) h5
  have hne : tail20 v ≠ [] := by
    intro hnil
    have := congrArg List.length hnil
    simp only [tail20, List.length_drop, List.length_nil] at this
    omega
  rcases pyMax_isSome (tail20 v) hne with ⟨hi, hhi⟩
  rcases pyMin_isSome (tail20 v) hne with ⟨lo, hlo⟩
  have hcur : nthQ v (v.length - 1) ∈ tail20 v := nthQ_last_mem_tail20 v h1
  have hle1 : nthQ v (v.length - 1) ≤ hi := pyMax_le _ _ _ hhi hcur
  have hle2 : lo ≤ nthQ v (v.length - 1) := pyMin_le _ _ _ hlo hcur
  exact ⟨hi, lo, hhi, hlo, hle2, hle1, le_trans hle2 hle1⟩

/-- Witness for C9 at the concrete input `demoVols`, as of date 4. -/
theorem highlow_bracketing_witness :
    demoImpliedRow ∈ computeImpliedVolChanges demoVols 4 ∧
    ∃ hi lo, demoImpliedRow.ann20dHigh = some hi ∧
      demoImpliedRow.ann20dLow = some lo ∧
      lo ≤ demoImpliedRow.annCurrent ∧ demoImpliedRow.annCurrent ≤ hi ∧
      lo ≤ hi := by
  have hmem : demoImpliedRow ∈ computeImpliedVolChanges demoVols 4 := by
    with_unfolding_all decide
  exact ⟨hmem, highlow_bracketing demoVols 4 demoImpliedRow hmem⟩

/-! ## Claim C6: realized-vol computation -/

theorem bpDiffs_length (v : List ℚ) : (bpDiffs v).length = v.length := by
  cases v with
  | nil => rfl
  | cons x xs => simp [bpDiffs]

theorem window_facts (w : ℕ) (hw : w ∈ REALIZED_VOL_WINDOWS) :
    w ≤ maxWindow ∧ 5 ≤ w / 2 := by
  simp only [REALIZED_VOL_WINDOWS, List.mem_cons, List.not_mem_nil,
    or_false] at hw
  rcases hw with rfl | rfl | rfl | rfl | rfl | rfl <;> decide

/-- The realized vol that `compute_realized_vol` reports for one window:
`rolling_std.iloc[-1] * sqrt(252)` (the code-side value). -/
noncomputable def reportedRealizedVol (v : List ℚ) (w : ℕ) : Option ℝ :=
  annualizedVol (realizedVarForWindow v w)

/-- Stated from the spec's words (for comparison with the code-side
`reportedRealizedVol`): the standard deviation of the bp-difference series
over the trailing `w` observations, with a minimum-period threshold of
`floor(w/2)` non-null differences (otherwise undefined), anchored at the
most recent observation, multiplied by `sqrt 252`. -/
noncomputable def specTrailingRealizedVol (v : List ℚ) (w : ℕ) : Option ℝ :=
  let diffs := bpDiffs v
  let xs := (diffs.drop (diffs.length - w)).filterMap id
  if w / 2 ≤ xs.length then some (Real.sqrt (sampleVar xs) * Real.sqrt 252)
  else none

/-- **C6** (realized-vol computation): for a rate series with at least
`max(windows)` observations and any configured window `w`, the value
reported by the code equals the spec's formula: the std of the trailing
`w` bp-differences under the `floor(w/2)` minimum-period threshold,
anchored at the most recent observation, times `sqrt 252`. -/
theorem realized_vol_formula (v : List ℚ) (w : ℕ)
    (hw : w ∈ REALIZED_VOL_WINDOWS) (hv : maxWindow ≤ v.length) :
    reportedRealizedVol v w = specTrailingRealizedVol v w := by
  obtain ⟨hw1, hw2⟩ := window_facts w hw
  have hlen : (bpDiffs v).length = v.length := bpDiffs_length v
  have h180 : maxWindow = 180 := by decide
  have hwle : w ≤ (bpDiffs v).length := by omega
  have h1 : (bpDiffs v).length - 1 + 1 = (bpDiffs v).length := by omega
  rw [reportedRealizedVol, realizedVarForWindow]
  simp only [specTrailingRealizedVol]
  rw [if_pos hwle, rollingStdVarAt]
  simp only [h1, List.take_length]
  by_cases hx : w / 2 ≤ (((bpDiffs v).drop ((bpDiffs v).length - w)).filterMap id).length
  · have hx2 : 2 ≤ (((bpDiffs v).drop ((bpDiffs v).length - w)).filterMap id).length := by
      omega
    rw [if_pos ⟨hx, hx2⟩, if_pos hx]
    rfl
  · rw [if_neg (fun hc => hx hc.1), if_neg hx]
    rfl

set_option maxRecDepth 4000 in
/-- Witness for C6: a constant 180-point series with window 10. -/
theorem realized_vol_formula_witness :
    10 ∈ REALIZED_VOL_WINDOWS ∧ maxWindow ≤ (List.replicate 180 (0 : ℚ)).length ∧
    reportedRealizedVol (List.replicate 180 (0 : ℚ)) 10 =
      specTrailingRealizedVol (List.replicate 180 (0 : ℚ)) 10 :=
  ⟨by decide, by decide,
    realized_vol_formula (List.replicate 180 (0 : ℚ)) 10 (by decide) (by decide)⟩

/-! ## Claim C1: no look-ahead -/

theorem computeImpliedVolChanges_congr (vols₁ vols₂ : List VolObs) (asOf : ℕ)
    (h : cutVol asOf vols₁ = cutVol asOf vols₂) :
    computeImpliedVolChanges vols₁ asOf = computeImpliedVolChanges vols₂ asOf := by
  simp only [computeImpliedVolChanges]
  rw [h]

theorem computeRealizedVol_congr (rates₁ rates₂ : List RateObs) (asOf : ℕ)
    (h : cutRate asOf rates₁ = cutRate asOf rates₂) :
    computeRealizedVol rates₁ asOf = computeRealizedVol rates₂ asOf := by
  simp only [computeRealizedVol]
  rw [h]

theorem addHighlightingFlags_congr (tbl : List TableRow)
    (vols₁ vols₂ : List VolObs) (asOf : ℕ)
    (h : cutVol asOf vols₁ = cutVol asOf vols₂) :
    addHighlightingFlags tbl vols₁ asOf = addHighlightingFlags tbl vols₂ asOf := by
  simp only [addHighlightingFlags]
  rw [h]

theorem buildTableRows_congr (vols₁ vols₂ : List VolObs)
    (rates₁ rates₂ : List RateObs) (asOf : ℕ)
    (h1 : cutVol asOf vols₁ = cutVol asOf vols₂)
    (h2 : cutRate asOf rates₁ = cutRate asOf rates₂) :
    buildTableRows vols₁ rates₁ asOf = buildTableRows vols₂ rates₂ asOf := by
  simp only [buildTableRows]
  rw [computeImpliedVolChanges_congr vols₁ vols₂ asOf h1,
    computeRealizedVol_congr rates₁ rates₂ asOf h2,
    addHighlightingFlags_congr _ vols₁ vols₂ asOf h1]

theorem buildSwaptionVolTable_congr (vols₁ vols₂ : List VolObs)
    (rates₁ rates₂ : List RateObs) (asOf : ℕ)
    (h1 : cutVol asOf vols₁ = cutVol asOf vols₂)
    (h2 : cutRate asOf rates₁ = cutRate asOf rates₂) :
    buildSwaptionVolTable vols₁ rates₁ asOf =
      buildSwaptionVolTable vols₂ rates₂ asOf := by
  simp only [buildSwaptionVolTable]
  rw [computeImpliedVolChanges_congr vols₁ vols₂ asOf h1,
    computeRealizedVol_congr rates₁ rates₂ asOf h2,
    buildTableRows_congr vols₁ vols₂ rates₁ rates₂ asOf h1 h2]

theorem cutVol_append_future (asOf : ℕ) (l extra : List VolObs)
    (h : ∀ o ∈ extra, asOf < o.date) :
    cutVol asOf (l ++ extra) = cutVol asOf l := by
  rw [cutVol, cutVol, List.filter_append]
  have hnil : extra.filter (fun o => o.date ≤ asOf) = [] := by
    rw [List.filter_eq_nil_iff]
    intro o ho
    simp only [decide_eq_true_eq]
    exact Nat.not_le.mpr (h o ho)
  rw [hnil, List.append_nil]

theorem cutRate_append_future (asOf : ℕ) (l extra : List RateObs)
    (h : ∀ o ∈ extra, asOf < o.date) :
    cutRate asOf (l ++ extra) = cutRate asOf l := by
  rw [cutRate, cutRate, List.filter_append]
  have hnil : extra.filter (fun o => o.date ≤ asOf) = [] := by
    rw [List.filter_eq_nil_iff]
    intro o ho
    simp only [decide_eq_true_eq]
    exact Nat.not_le.mpr (h o ho)
  rw [hnil, List.append_nil]

/-- **C1** (no look-ahead): `build_swaption_vol_table` is a function only
of the observations dated at or before the as-of-date — two observation
universes that agree after the `date ≤ as_of_date` truncation yield the
same table, and appending observations dated strictly after the
as-of-date leaves the table unchanged. -/
theorem build_no_lookahead (vols₁ vols₂ : List VolObs)
    (rates₁ rates₂ : List RateObs) (extraV : List VolObs)
    (extraR : List RateObs) (asOf : ℕ)
    (h1 : cutVol asOf vols₁ = cutVol asOf vols₂)
    (h2 : cutRate asOf rates₁ = cutRate asOf rates₂)
    (hv : ∀ o ∈ extraV, asOf < o.date)
    (hr : ∀ o ∈ extraR, asOf < o.date) :
    buildSwaptionVolTable vols₁ rates₁ asOf =
      buildSwaptionVolTable vols₂ rates₂ asOf ∧
    buildSwaptionVolTable (vols₁ ++ extraV) (rates₁ ++ extraR) asOf =
      buildSwaptionVolTable vols₁ rates₁ asOf := by
  refine ⟨buildSwaptionVolTable_congr vols₁ vols₂ rates₁ rates₂ asOf h1 h2, ?_⟩
  exact buildSwaptionVolTable_congr _ _ _ _ asOf
    (cutVol_append_future asOf vols₁ extraV hv)
    (cutRate_append_future asOf rates₁ extraR hr)

set_option maxHeartbeats 800000 in
/-- Witness for C1: the two vol universes differ only in an observation
dated after the as-of-date 4, and future-dated observations are appended
to both observation sets. -/
theorem build_no_lookahead_witness :
    buildSwaptionVolTable [⟨0, "1M", 2, 10⟩] [⟨0, 2, 4⟩] 4 =
      buildSwaptionVolTable [⟨0, "1M", 2, 10⟩, ⟨7, "1Y", 10, 33⟩] [⟨0, 2, 4⟩] 4 ∧
    buildSwaptionVolTable ([⟨0, "1M", 2, 10⟩] ++ [⟨9, "3M", 5, 77⟩])
        ([⟨0, 2, 4⟩] ++ [⟨8, 2, 5⟩]) 4 =
      buildSwaptionVolTable [⟨0, "1M", 2, 10⟩] [⟨0, 2, 4⟩] 4 :=
  build_no_lookahead [⟨0, "1M", 2, 10⟩] [⟨0, "1M", 2, 10⟩, ⟨7, "1Y", 10, 33⟩]
    [⟨0, 2, 4⟩] [⟨0, 2, 4⟩] [⟨9, "3M", 5, 77⟩] [⟨8, 2, 5⟩] 4
    (by with_unfolding_all decide) (by with_unfolding_all decide)
    (by decide) (by decide)

/-! ## Claims C7 and C10: as-of-date validation -/

theorem getSwaptionTable_eq (vols : List VolObs) (rates : List RateObs)
    (asOf mn mx : ℕ) (hmn : pyMin (vols.map (·.date)) = some mn)
    (hmx : pyMax (vols.map (·.date)) = some mx) :
    getSwaptionTable vols rates asOf =
      if asOf < mn then Except.error "Date is before earliest data"
      else if mx < asOf then Except.error "Date is after latest data"
      else buildSwaptionVolTable vols rates asOf := by
  simp only [getSwaptionTable, hmn, hmx]

/-- Five `(1M, 2Y)` observations on dates 0–4. -/
def demoVols5 : List VolObs :=
  (List.range 5).map (fun i => ⟨i, "1M", 2, 10⟩)

/-- A rate universe with 100 observations of one tenor — fewer than
`max(windows) = 180` — so no tenor qualifies for realized metrics. -/
def demoRates100 : List RateObs :=
  (List.range 100).map (fun i => ⟨i, 2, 4⟩)

/-- A rate universe with 180 observations of tenor 7 on dates 0–179, so
that tenor qualifies for realized metrics at any as-of-date from 179
on. -/
def demoRates180 : List RateObs :=
  (List.range 180).map (fun i => ⟨i, 7, 4⟩)

/-- A `(1M, 2Y)` implied universe spanning dates 0–1000 (21 early daily
observations plus one dated 1000). -/
def demoVolsWide : List VolObs :=
  ((List.range 21).map (fun i => ⟨i, "1M", 2, if i = 20 then 5 else 0⟩)) ++
    [⟨1000, "1M", 2, 6⟩]

/-- **C7** (invalid-date rejection, shown false of the code): date 4 lies
inside the implied universe's range 0–9, yet `get_swaption_table` raises:
the truncated rate set leaves no tenor with `max(windows)` observations,
so the merge on the column-less realized frame raises `KeyError: 'tenor'`
— an in-range as-of-date aborts table construction, contradicting the
claim that the date check is the only aborting condition. -/
theorem inrange_build_raises :
    pyMin (demoVols.map (·.date)) = some 0 ∧
    pyMax (demoVols.map (·.date)) = some 9 ∧
    (0 : ℕ) ≤ 4 ∧ (4 : ℕ) ≤ 9 ∧
    getSwaptionTable demoVols demoRates100 4 =
      Except.error "KeyError: tenor" := by
  refine ⟨by decide, by decide, by decide, by decide, ?_⟩
  with_unfolding_all decide

/-- **C10 (amended)** (validation universe asymmetry): the as-of-date
check compares only against the implied-vol observation set's minimum and
maximum dates; an as-of-date inside the implied range always passes
validation and table construction is invoked with no condition at all on
the swap-rate observation set — the result is exactly the build's
outcome, a table whenever the build succeeds (even with the as-of-date
outside the rate set's range) and the build's `KeyError` when the
truncated rate set leaves no qualifying tenor. -/
theorem rate_range_not_validated (vols : List VolObs) (rates : List RateObs)
    (asOf mn mx : ℕ) (hmn : pyMin (vols.map (·.date)) = some mn)
    (hmx : pyMax (vols.map (·.date)) = some mx)
    (h1 : mn ≤ asOf) (h2 : asOf ≤ mx) :
    getSwaptionTable vols rates asOf = buildSwaptionVolTable vols rates asOf := by
  rw [getSwaptionTable_eq vols rates asOf mn mx hmn hmx,
    if_neg (by omega : ¬asOf < mn), if_neg (by omega : ¬mx < asOf)]

/-- Counterexample to C10 as stated ("the table is built"): date 4 lies
inside the implied range 0–9 and the rate set (one observation dated 100)
lies entirely after it; validation accepts the date, but the build then
raises the merge `KeyError` instead of producing a table. -/
theorem rate_range_counterexample :
    pyMin (demoVols.map (·.date)) = some 0 ∧
    pyMax (demoVols.map (·.date)) = some 9 ∧
    (∀ o ∈ ([⟨100, 2, 4⟩] : List RateObs), 4 < o.date) ∧
    getSwaptionTable demoVols [⟨100, 2, 4⟩] 4 =
      Except.error "KeyError: tenor" := by
  refine ⟨by decide, by decide, by decide, ?_⟩
  with_unfolding_all decide

/-- Witness for the amended C10: as-of-date 1000 is inside the implied
range 0–1000 but outside the rate set's range 0–179; validation passes
with no look at the rates, and here the build in fact completes. -/
theorem rate_range_not_validated_witness :
    getSwaptionTable demoVolsWide demoRates180 1000 =
      buildSwaptionVolTable demoVolsWide demoRates180 1000 ∧
    pyMax (demoRates180.map (·.date)) = some 179 ∧ (179 : ℕ) < 1000 ∧
    buildSwaptionVolTable demoVolsWide demoRates180 1000 =
      Except.ok (buildTableRows demoVolsWide demoRates180 1000) := by
  refine ⟨rate_range_not_validated demoVolsWide demoRates180 1000 0 1000
    (by with_unfolding_all decide) (by with_unfolding_all decide)
    (by decide) (by decide), by with_unfolding_all decide, by decide, ?_⟩
  exact buildSwaptionVolTable_ok demoVolsWide demoRates180 1000
    (by with_unfolding_all decide) (by with_unfolding_all decide)

/-! ## Claim C8: left-join retention -/

theorem pairwise_key_filterMap {κ β : Type} (ks : List κ) (f : κ → Option β)
    (key : β → κ) (hf : ∀ k b, f k = some b → key b = k) (h : ks.Nodup) :
    (ks.filterMap f).Pairwise (fun a b => key a ≠ key b) := by
  induction ks with
  | nil => simp
  | cons k ks ih =>
    rw [List.filterMap_cons]
    rcases List.nodup_cons.mp h with ⟨hk, hks⟩
    cases hfk : f k with
    | none => exact ih hks
    | some b =>
      refine List.Pairwise.cons ?_ (ih hks)
      intro c hc
      rcases List.mem_filterMap.mp hc with ⟨k2, hk2, hfk2⟩
      rw [hf k b hfk, hf k2 c hfk2]
      intro heq
      exact hk (heq ▸ hk2)

theorem realizedRowOf_tenor (t : ℕ) (v : List ℚ) :
    (realizedRowOf t v).tenor = t := rfl

theorem rateKeys_nodup (l : List RateObs) : (rateKeys l).Nodup :=
  sortLe_nodup _ _ (List.nodup_dedup _)

theorem computeRealizedVol_tenor_pairwise (rates : List RateObs) (asOf : ℕ) :
    (computeRealizedVol rates asOf).Pairwise (fun a b => a.tenor ≠ b.tenor) := by
  apply pairwise_key_filterMap _ _ RealizedRow.tenor
  · intro k b hb
    by_cases h : (rateSeriesOf (cutRate asOf rates) k).length < maxWindow
    · simp [h] at hb
    · simp only [h, if_false, Option.some.injEq] at hb
      rw [← hb]
      rfl
  · exact rateKeys_nodup _

theorem realized_filter_eq_find (rl : List RealizedRow) (t : ℕ)
    (h : rl.Pairwise (fun a b => a.tenor ≠ b.tenor)) :
    rl.filter (fun rr => rr.tenor == t) =
      (rl.find? (fun rr => rr.tenor == t)).toList := by
  induction rl with
  | nil => rfl
  | cons x xs ih =>
    rcases List.pairwise_cons.mp h with ⟨hx, hxs⟩
    by_cases hxt : x.tenor = t
    · rw [List.filter_cons_of_pos (by simpa using hxt),
        List.find?_cons_of_pos _ (by simpa using hxt)]
      have hnil : xs.filter (fun rr => rr.tenor == t) = [] := by
        rw [List.filter_eq_nil_iff]
        intro rr hrr
        simp only [beq_iff_eq]
        rw [← hxt]
        exact fun hc => hx rr hrr hc.symm
      rw [hnil]
      rfl
    · rw [List.filter_cons_of_neg (by simpa using hxt),
        List.find?_cons_of_neg _ (by simpa using hxt)]
      exact ih hxs

theorem mergeLeft_eq_map (il : List ImpliedRow) (rl : List RealizedRow)
    (h : rl.Pairwise (fun a b => a.tenor ≠ b.tenor)) :
    mergeLeft il rl =
      il.map (fun ir => rowOfJoin ir (rl.find? (fun rr => rr.tenor == ir.tenor))) := by
  induction il with
  | nil => rfl
  | cons ir irs ih =>
    rw [mergeLeft, List.flatMap_cons, List.map_cons, ← mergeLeft, ih]
    rw [realized_filter_eq_find rl ir.tenor h]
    cases hfind : rl.find? (fun rr => rr.tenor == ir.tenor) with
    | none => rfl
    | some rr => rfl

/-- The implied-metrics part of a joined table row. -/
def impliedPartOf (r : TableRow) : ImpliedRow :=
  { expiry := r.expiry, tenor := r.tenor, annCurrent := r.annCurrent,
    ann1dChg := r.ann1dChg, ann1wChg := r.ann1wChg, ann1mChg := r.ann1mChg,
    ann20dHigh := r.ann20dHigh, ann20dLow := r.ann20dLow }

theorem impliedPartOf_rowOfJoin (ir : ImpliedRow) (o : Option RealizedRow) :
    impliedPartOf (rowOfJoin ir o) = ir := rfl

theorem rowOfJoin_tenor (ir : ImpliedRow) (o : Option RealizedRow) :
    (rowOfJoin ir o).tenor = ir.tenor := rfl

/-- **C8 (amended)** (left-join retention): provided the realized-metrics
frame is non-empty (at least one tenor has `max(windows)` observations),
the merge of implied metrics with realized metrics is a left join on
tenor — every implied row appears exactly once and in order (projecting
the joined table back onto its implied part recovers the implied table);
a joined row whose tenor has no realized entry keeps its implied fields
and has every realized field undefined; and rows sharing a tenor carry
identical realized fields.  When no tenor qualifies, the column-less
realized frame makes the merge raise `KeyError: 'tenor'` and the whole
table is lost, rather than rows being kept with undefined fields. -/
theorem left_join_retention (vols : List VolObs) (rates : List RateObs)
    (asOf : ℕ) :
    (computeRealizedVol rates asOf ≠ [] →
      (mergeLeft (computeImpliedVolChanges vols asOf)
          (computeRealizedVol rates asOf)).map impliedPartOf =
        computeImpliedVolChanges vols asOf ∧
      (∀ r ∈ mergeLeft (computeImpliedVolChanges vols asOf)
          (computeRealizedVol rates asOf),
        (∀ rr ∈ computeRealizedVol rates asOf, rr.tenor ≠ r.tenor) →
          r.var10 = none ∧ r.var20 = none ∧ r.var60 = none ∧
          r.var90 = none ∧ r.var120 = none ∧ r.var180 = none) ∧
      (∀ r₁ ∈ mergeLeft (computeImpliedVolChanges vols asOf)
          (computeRealizedVol rates asOf),
        ∀ r₂ ∈ mergeLeft (computeImpliedVolChanges vols asOf)
          (computeRealizedVol rates asOf),
        r₁.tenor = r₂.tenor →
          r₁.var10 = r₂.var10 ∧ r₁.var20 = r₂.var20 ∧ r₁.var60 = r₂.var60 ∧
          r₁.var90 = r₂.var90 ∧ r₁.var120 = r₂.var120 ∧
          r₁.var180 = r₂.var180)) ∧
    (computeRealizedVol rates asOf = [] →
      computeImpliedVolChanges vols asOf ≠ [] →
      buildSwaptionVolTable vols rates asOf =
        Except.error "KeyError: tenor") := by
  constructor
  · intro _
    have hpw := computeRealizedVol_tenor_pairwise rates asOf
    rw [mergeLeft_eq_map _ _ hpw]
    refine ⟨?_, ?_, ?_⟩
    · rw [List.map_map]
      apply List.map_id''
      intro ir
      exact impliedPartOf_rowOfJoin ir _
    · intro r hr hno
      rcases List.mem_map.mp hr with ⟨ir, hir, rfl⟩
      have hfind : (computeRealizedVol rates asOf).find?
          (fun rr => rr.tenor == ir.tenor) = none := by
        rw [List.find?_eq_none]
        intro rr hrr
        simp only [beq_iff_eq]
        exact fun hc => hno rr hrr (hc.trans (rowOfJoin_tenor ir _).symm)
      rw [hfind]
      exact ⟨rfl, rfl, rfl, rfl, rfl, rfl⟩
    · intro r₁ hr₁ r₂ hr₂ ht
      rcases List.mem_map.mp hr₁ with ⟨ir₁, hir₁, rfl⟩
      rcases List.mem_map.mp hr₂ with ⟨ir₂, hir₂, rfl⟩
      rw [rowOfJoin_tenor, rowOfJoin_tenor] at ht
      rw [ht]
      exact ⟨rfl, rfl, rfl, rfl, rfl, rfl⟩
  · intro h2 h1
    rw [buildSwaptionVolTable, if_neg h1, if_pos h2]

/-- Counterexample to C8 as stated: implied rows exist (the `(1M, 2)` key
has 5 observations at/before date 4) and no rate tenor qualifies, so
instead of joined rows with undefined realized fields the merge raises
and the implied rows are lost with the whole table. -/
theorem left_join_empty_counterexample :
    computeImpliedVolChanges demoVols 4 ≠ [] ∧
    computeRealizedVol demoRates100 4 = [] ∧
    buildSwaptionVolTable demoVols demoRates100 4 =
      Except.error "KeyError: tenor" := by
  refine ⟨by with_unfolding_all decide, by with_unfolding_all decide, ?_⟩
  with_unfolding_all decide

/-- Witness for the amended C8: a non-empty realized frame (tenor 7
qualifies) joined against an implied key of tenor 2, plus the raising
branch at a universe where no tenor qualifies. -/
theorem left_join_retention_witness :
    computeRealizedVol demoRates180 1000 ≠ [] ∧
    (mergeLeft (computeImpliedVolChanges demoVols5 1000)
        (computeRealizedVol demoRates180 1000)).map impliedPartOf =
      computeImpliedVolChanges demoVols5 1000 ∧
    computeRealizedVol demoRates100 4 = [] ∧
    computeImpliedVolChanges demoVols 4 ≠ [] ∧
    buildSwaptionVolTable demoVols demoRates100 4 =
      Except.error "KeyError: tenor" := by
  have hne : computeRealizedVol demoRates180 1000 ≠ [] := by
    with_unfolding_all decide
  have h2 : computeRealizedVol demoRates100 4 = [] := by
    with_unfolding_all decide
  have h1 : computeImpliedVolChanges demoVols 4 ≠ [] := by
    with_unfolding_all decide
  exact ⟨hne, ((left_join_retention demoVols5 demoRates180 1000).1 hne).1,
    h2, h1, (left_join_retention demoVols demoRates100 4).2 h2 h1⟩

/-! ## Characterizing `add_highlighting_flags` row by row -/

/-- The `(expiry, tenor)` key of a table row. -/
def tableKey (r : TableRow) : String × ℕ := (r.expiry, r.tenor)

theorem setFlags_tableKey (v : List ℚ) (r : TableRow) :
    tableKey (setFlags v r) = tableKey r := rfl

theorem setFlags_expiry (v : List ℚ) (r : TableRow) :
    (setFlags v r).expiry = r.expiry := rfl

theorem setFlags_tenor (v : List ℚ) (r : TableRow) :
    (setFlags v r).tenor = r.tenor := rfl

theorem clearFlags_expiry (r : TableRow) :
    (clearFlags r).expiry = r.expiry := rfl

theorem clearFlags_tenor (r : TableRow) :
    (clearFlags r).tenor = r.tenor := rfl

theorem clearFlags_tableKey (r : TableRow) :
    tableKey (clearFlags r) = tableKey r := rfl

theorem updateFirst_key_eq_map (k : String × ℕ) (f : TableRow → TableRow)
    (tbl : List TableRow)
    (h : tbl.Pairwise (fun a b => tableKey a ≠ tableKey b)) :
    updateFirst (fun r => r.expiry == k.1 && r.tenor == k.2) f tbl =
      tbl.map (fun r => if tableKey r = k then f r else r) := by
  induction tbl with
  | nil => rfl
  | cons x xs ih =>
    rcases List.pairwise_cons.mp h with ⟨hx, hxs⟩
    by_cases hk : tableKey x = k
    · have hk2 : x.expiry = k.1 ∧ x.tenor = k.2 := by
        rw [tableKey, Prod.ext_iff] at hk
        exact hk
      have hb : (x.expiry == k.1 && x.tenor == k.2) = true := by
        simp [hk2.1, hk2.2]
      simp only [updateFirst, hb, if_true, List.map_cons, if_pos hk]
      have htail : ∀ r ∈ xs, (if tableKey r = k then f r else r) = r := by
        intro r hr
        exact if_neg (fun hc => hx r hr (hk.trans hc.symm))
      rw [List.map_congr_left htail, List.map_id' xs]
    · have hb : (x.expiry == k.1 && x.tenor == k.2) = false := by
        rw [tableKey, Prod.ext_iff] at hk
        by_cases h1 : x.expiry = k.1
        · have h2 : x.tenor ≠ k.2 := fun h2 => hk ⟨h1, h2⟩
          simp [h2]
        · simp [h1]
      simp only [updateFirst, hb, Bool.false_eq_true, if_false, List.map_cons,
        if_neg hk, ih hxs]

theorem applyFlagsForKey_eq_map (data : List VolObs) (tbl : List TableRow)
    (k : String × ℕ)
    (h : tbl.Pairwise (fun a b => tableKey a ≠ tableKey b)) :
    applyFlagsForKey data tbl k =
      tbl.map (fun r =>
        if tableKey r = k ∧ 21 ≤ (seriesOf data k.1 k.2).length
        then setFlags (seriesOf data k.1 k.2) r else r) := by
  simp only [applyFlagsForKey]
  by_cases h21 : (seriesOf data k.1 k.2).length < 21
  · rw [if_pos h21]
    symm
    exact (List.map_congr_left (fun r _ =>
      if_neg (fun hc => absurd hc.2 (by omega)))).trans (List.map_id' tbl)
  · rw [if_neg h21, updateFirst_key_eq_map k _ tbl h]
    apply List.map_congr_left
    intro r hr
    by_cases hk : tableKey r = k
    · rw [if_pos hk, if_pos ⟨hk, by omega⟩]
    · rw [if_neg hk, if_neg (fun hc => hk hc.1)]

theorem foldl_applyFlags_eq_map (data : List VolObs) (ks : List (String × ℕ))
    (hks : ks.Nodup) (tbl : List TableRow)
    (h : tbl.Pairwise (fun a b => tableKey a ≠ tableKey b)) :
    ks.foldl (applyFlagsForKey data) tbl =
      tbl.map (fun r =>
        if tableKey r ∈ ks ∧ 21 ≤ (seriesOf data r.expiry r.tenor).length
        then setFlags (seriesOf data r.expiry r.tenor) r else r) := by
  induction ks generalizing tbl with
  | nil =>
    rw [List.foldl_nil]
    symm
    exact (List.map_congr_left (fun r _ =>
      if_neg (fun hc => List.not_mem_nil _ hc.1))).trans (List.map_id' tbl)
  | cons k ks ih =>
    rcases List.nodup_cons.mp hks with ⟨hknot, hktail⟩
    rw [List.foldl_cons, applyFlagsForKey_eq_map data tbl k h]
    have hgkey : ∀ r : TableRow,
        tableKey (if tableKey r = k ∧ 21 ≤ (seriesOf data k.1 k.2).length
          then setFlags (seriesOf data k.1 k.2) r else r) = tableKey r := by
      intro r
      split
      · exact setFlags_tableKey _ r
      · rfl
    have hpres : (tbl.map (fun r =>
        if tableKey r = k ∧ 21 ≤ (seriesOf data k.1 k.2).length
        then setFlags (seriesOf data k.1 k.2) r else r)).Pairwise
          (fun a b => tableKey a ≠ tableKey b) := by
      rw [List.pairwise_map]
      refine h.imp ?_
      intro a b hab
      rw [hgkey a, hgkey b]
      exact hab
    rw [ih hktail _ hpres, List.map_map]
    apply List.map_congr_left
    intro r hr
    simp only [Function.comp_apply]
    by_cases hk : tableKey r = k
    · have hk1 : k.1 = r.expiry := by rw [← hk]; rfl
      have hk2 : k.2 = r.tenor := by rw [← hk]; rfl
      rw [hk1, hk2]
      by_cases h21 : 21 ≤ (seriesOf data r.expiry r.tenor).length
      · have hg : (if tableKey r = k ∧ 21 ≤ (seriesOf data r.expiry r.tenor).length
            then setFlags (seriesOf data r.expiry r.tenor) r else r) =
              setFlags (seriesOf data r.expiry r.tenor) r := if_pos ⟨hk, h21⟩
        rw [hg]
        simp only [setFlags_tableKey, setFlags_expiry, setFlags_tenor]
        have hnot : ¬(tableKey r ∈ ks ∧
            21 ≤ (seriesOf data r.expiry r.tenor).length) :=
          fun hc => hknot (hk ▸ hc.1)
        rw [if_neg hnot]
        have hmem : tableKey r ∈ k :: ks := by
          rw [hk]; exact List.mem_cons_self k ks
        rw [if_pos ⟨hmem, h21⟩]
      · have hg : (if tableKey r = k ∧ 21 ≤ (seriesOf data r.expiry r.tenor).length
            then setFlags (seriesOf data r.expiry r.tenor) r else r) = r :=
          if_neg (fun hc => h21 hc.2)
        rw [hg]
        have hn1 : ¬(tableKey r ∈ ks ∧
            21 ≤ (seriesOf data r.expiry r.tenor).length) :=
          fun hc => h21 hc.2
        have hn2 : ¬(tableKey r ∈ k :: ks ∧
            21 ≤ (seriesOf data r.expiry r.tenor).length) :=
          fun hc => h21 hc.2
        rw [if_neg hn1, if_neg hn2]
    · have hg : (if tableKey r = k ∧ 21 ≤ (seriesOf data k.1 k.2).length
          then setFlags (seriesOf data k.1 k.2) r else r) = r :=
        if_neg (fun hc => hk hc.1)
      rw [hg]
      by_cases hmem : tableKey r ∈ ks ∧ 21 ≤ (seriesOf data r.expiry r.tenor).length
      · rw [if_pos hmem, if_pos ⟨List.mem_cons_of_mem k hmem.1, hmem.2⟩]
      · rw [if_neg hmem, if_neg (fun hc => hmem
          ⟨(List.mem_cons.mp hc.1).resolve_left hk, hc.2⟩)]

/-- Row-by-row description of `add_highlighting_flags` on a table with
pairwise-distinct `(expiry, tenor)` keys: every row gets its flags cleared
and then, exactly when its own truncated series has at least 21 points,
re-evaluated against that series. -/
theorem addHighlightingFlags_eq_map (tbl : List TableRow) (vols : List VolObs)
    (asOf : ℕ)
    (h : tbl.Pairwise (fun a b => tableKey a ≠ tableKey b)) :
    addHighlightingFlags tbl vols asOf =
      tbl.map (fun r =>
        if 21 ≤ (seriesFor vols asOf r.expiry r.tenor).length
        then setFlags (seriesFor vols asOf r.expiry r.tenor) (clearFlags r)
        else clearFlags r) := by
  simp only [addHighlightingFlags]
  have hpres : (tbl.map clearFlags).Pairwise
      (fun a b => tableKey a ≠ tableKey b) := by
    rw [List.pairwise_map]
    refine h.imp ?_
    intro a b hab
    rw [clearFlags_tableKey, clearFlags_tableKey]
    exact hab
  rw [foldl_applyFlags_eq_map (cutVol asOf vols) _ (volKeys_nodup _) _ hpres,
    List.map_map]
  apply List.map_congr_left
  intro r hr
  simp only [Function.comp_apply, clearFlags_tableKey, clearFlags_expiry,
    clearFlags_tenor, seriesFor]
  by_cases h21 : 21 ≤ (seriesOf (cutVol asOf vols) r.expiry r.tenor).length
  · have hmem : tableKey r ∈ volKeys (cutVol asOf vols) := by
      have hne : seriesOf (cutVol asOf vols) r.expiry r.tenor ≠ [] := by
        intro hnil
        rw [hnil] at h21
        simp at h21
      exact mem_volKeys_of_series_ne_nil _ _ _ hne
    rw [if_pos ⟨hmem, h21⟩, if_pos h21]
  · rw [if_neg (fun hc => h21 hc.2), if_neg h21]

/-! ## Characterizing the rows of the final table -/

theorem contains_iff_mem_of_lawful [BEq α] [LawfulBEq α] (l : List α) (a : α) :
    l.contains a = true ↔ a ∈ l := by simp

theorem computeImpliedVolChanges_key_pairwise (vols : List VolObs) (asOf : ℕ) :
    (computeImpliedVolChanges vols asOf).Pairwise
      (fun a b => (a.expiry, a.tenor) ≠ (b.expiry, b.tenor)) := by
  simp only [computeImpliedVolChanges]
  apply pairwise_key_filterMap _ _ (fun ir : ImpliedRow => (ir.expiry, ir.tenor))
  · intro k b hb
    by_cases h : (seriesOf (cutVol asOf vols) k.1 k.2).length < 5
    · simp [h] at hb
    · simp only [h, if_false, Option.some.injEq] at hb
      rw [← hb]
      rfl
  · exact volKeys_nodup _

theorem rowOfJoin_tableKey (ir : ImpliedRow) (o : Option RealizedRow) :
    tableKey (rowOfJoin ir o) = (ir.expiry, ir.tenor) := rfl

/-- The joined (pre-flag) table row of one grid key. -/
def joinedRowFor (vols : List VolObs) (rates : List RateObs) (asOf : ℕ)
    (e : String) (t : ℕ) : TableRow :=
  rowOfJoin (impliedRowOf e t (seriesFor vols asOf e t))
    ((computeRealizedVol rates asOf).find? (fun rr => rr.tenor == t))

/-- The final table row of one grid key: the joined row with its mover
flags initialized and, when the key's series has at least 21 points,
evaluated against that series. -/
def assembledRow (vols : List VolObs) (rates : List RateObs) (asOf : ℕ)
    (e : String) (t : ℕ) : TableRow :=
  if 21 ≤ (seriesFor vols asOf e t).length
  then setFlags (seriesFor vols asOf e t)
    (clearFlags (joinedRowFor vols rates asOf e t))
  else clearFlags (joinedRowFor vols rates asOf e t)

theorem assembledRow_expiry (vols : List VolObs) (rates : List RateObs)
    (asOf : ℕ) (e : String) (t : ℕ) :
    (assembledRow vols rates asOf e t).expiry = e := by
  rw [assembledRow]
  split
  · rfl
  · rfl

theorem assembledRow_tenor (vols : List VolObs) (rates : List RateObs)
    (asOf : ℕ) (e : String) (t : ℕ) :
    (assembledRow vols rates asOf e t).tenor = t := by
  rw [assembledRow]
  split
  · rfl
  · rfl

/-- The table with pairwise-distinct keys that `add_highlighting_flags`
receives: joined rows filtered to the configured grid. -/
theorem gridded_pairwise (vols : List VolObs) (rates : List RateObs)
    (asOf : ℕ) :
    (((mergeLeft (computeImpliedVolChanges vols asOf)
          (computeRealizedVol rates asOf)).filter
        (fun r => OPTION_TENORS.contains r.expiry)).filter
          (fun r => SWAP_TENORS.contains r.tenor)).Pairwise
      (fun a b => tableKey a ≠ tableKey b) := by
  apply List.Pairwise.filter
  apply List.Pairwise.filter
  rw [mergeLeft_eq_map _ _ (computeRealizedVol_tenor_pairwise rates asOf),
    List.pairwise_map]
  refine (computeImpliedVolChanges_key_pairwise vols asOf).imp ?_
  intro a b hab
  rw [rowOfJoin_tableKey, rowOfJoin_tableKey]
  exact hab

/-- Row characterization of a completed `build_swaption_vol_table`: the
table rows are exactly the assembled rows of the grid keys whose
truncated implied series has at least 5 points. -/
theorem mem_buildTableRows (vols : List VolObs) (rates : List RateObs)
    (asOf : ℕ) (r : TableRow) :
    r ∈ buildTableRows vols rates asOf ↔
      ∃ e t, 5 ≤ (seriesFor vols asOf e t).length ∧ e ∈ OPTION_TENORS ∧
        t ∈ SWAP_TENORS ∧ r = assembledRow vols rates asOf e t := by
  simp only [buildTableRows]
  rw [mem_sortLe,
    addHighlightingFlags_eq_map _ _ _ (gridded_pairwise vols rates asOf),
    List.mem_map]
  constructor
  · rintro ⟨r₀, hr₀, rfl⟩
    rcases List.mem_filter.mp hr₀ with ⟨hr₁, hp2⟩
    rcases List.mem_filter.mp hr₁ with ⟨hr₂, hp1⟩
    rw [mergeLeft_eq_map _ _ (computeRealizedVol_tenor_pairwise rates asOf),
      List.mem_map] at hr₂
    rcases hr₂ with ⟨ir, hir, rfl⟩
    rcases (mem_computeImpliedVolChanges vols asOf ir).mp hir with ⟨e, t, h5, rfl⟩
    refine ⟨e, t, h5, ?_, ?_, ?_⟩
    · exact (contains_iff_mem_of_lawful _ _).mp hp1
    · exact (contains_iff_mem_of_lawful _ _).mp hp2
    · rfl
  · rintro ⟨e, t, h5, he, ht, rfl⟩
    refine ⟨joinedRowFor vols rates asOf e t, ?_, rfl⟩
    apply List.mem_filter.mpr
    refine ⟨?_, (contains_iff_mem_of_lawful _ _).mpr ht⟩
    apply List.mem_filter.mpr
    refine ⟨?_, (contains_iff_mem_of_lawful _ _).mpr he⟩
    rw [mergeLeft_eq_map _ _ (computeRealizedVol_tenor_pairwise rates asOf),
      List.mem_map]
    exact ⟨impliedRowOf e t (seriesFor vols asOf e t),
      (mem_computeImpliedVolChanges vols asOf _).mpr ⟨e, t, h5, rfl⟩, rfl⟩

/-! ## Claims C4, C2, C3: row presence and mover flags -/

theorem assembledRow_ann1dChg (vols : List VolObs) (rates : List RateObs)
    (asOf : ℕ) (e : String) (t : ℕ) :
    (assembledRow vols rates asOf e t).ann1dChg =
      (impliedRowOf e t (seriesFor vols asOf e t)).ann1dChg := by
  rw [assembledRow]
  split
  · rfl
  · rfl

theorem assembledRow_ann1wChg (vols : List VolObs) (rates : List RateObs)
    (asOf : ℕ) (e : String) (t : ℕ) :
    (assembledRow vols rates asOf e t).ann1wChg =
      (impliedRowOf e t (seriesFor vols asOf e t)).ann1wChg := by
  rw [assembledRow]
  split
  · rfl
  · rfl

theorem assembledRow_ann1mChg (vols : List VolObs) (rates : List RateObs)
    (asOf : ℕ) (e : String) (t : ℕ) :
    (assembledRow vols rates asOf e t).ann1mChg =
      (impliedRowOf e t (seriesFor vols asOf e t)).ann1mChg := by
  rw [assembledRow]
  split
  · rfl
  · rfl

theorem assembledRow_flags_of_short (vols : List VolObs) (rates : List RateObs)
    (asOf : ℕ) (e : String) (t : ℕ)
    (h : (seriesFor vols asOf e t).length < 21) :
    (assembledRow vols rates asOf e t).is1dMover = false ∧
    (assembledRow vols rates asOf e t).is1wMover = false ∧
    (assembledRow vols rates asOf e t).is1mMover = false := by
  rw [assembledRow, if_neg (by omega)]
  exact ⟨rfl, rfl, rfl⟩

theorem assembledRow_is1d_of_long (vols : List VolObs) (rates : List RateObs)
    (asOf : ℕ) (e : String) (t : ℕ)
    (h : 21 ≤ (seriesFor vols asOf e t).length) :
    (assembledRow vols rates asOf e t).is1dMover =
      moverFlag (seriesFor vols asOf e t) 11 10 1
        ((impliedRowOf e t (seriesFor vols asOf e t)).ann1dChg) := by
  rw [assembledRow, if_pos h]
  rfl

theorem assembledRow_is1w_of_long (vols : List VolObs) (rates : List RateObs)
    (asOf : ℕ) (e : String) (t : ℕ)
    (h : 21 ≤ (seriesFor vols asOf e t).length) :
    (assembledRow vols rates asOf e t).is1wMover =
      moverFlag (seriesFor vols asOf e t) 26 20 5
        ((impliedRowOf e t (seriesFor vols asOf e t)).ann1wChg) := by
  rw [assembledRow, if_pos h]
  rfl

theorem assembledRow_is1m_of_long (vols : List VolObs) (rates : List RateObs)
    (asOf : ℕ) (e : String) (t : ℕ)
    (h : 21 ≤ (seriesFor vols asOf e t).length) :
    (assembledRow vols rates asOf e t).is1mMover =
      moverFlag (seriesFor vols asOf e t) 141 120 20
        ((impliedRowOf e t (seriesFor vols asOf e t)).ann1mChg) := by
  rw [assembledRow, if_pos h]
  rfl

theorem moverFlag_false_of_short (v : List ℚ) (minLen lookback period : ℕ)
    (cur : Option ℚ) (h : ¬minLen ≤ v.length) :
    moverFlag v minLen lookback period cur = false := by
  unfold moverFlag
  rw [if_neg h]

theorem absChangesWindow_ne_nil (v : List ℚ) (lookback period : ℕ)
    (h1 : 1 ≤ lookback) (h2 : period + 1 ≤ v.length) :
    absChangesWindow v lookback period ≠ [] := by
  intro hnil
  have hmem : v.length - 1 ∈ List.range' (v.length - lookback) lookback := by
    rw [List.mem_range'_1]
    omega
  have hguard : period ≤ v.length - 1 := by omega
  have hin : |nthQ v (v.length - 1) - nthQ v (v.length - 1 - period)| ∈
      absChangesWindow v lookback period := by
    apply List.mem_filterMap.mpr
    exact ⟨v.length - 1, hmem, by rw [if_pos hguard]⟩
  rw [hnil] at hin
  cases hin

theorem moverFlag_true_iff (v : List ℚ) (minLen lookback period : ℕ) (c : ℚ)
    (hlen : minLen ≤ v.length)
    (hne : absChangesWindow v lookback period ≠ []) :
    (moverFlag v minLen lookback period (some c) = true ↔
      pyMax (absChangesWindow v lookback period) = some |c|) := by
  rcases pyMax_isSome _ hne with ⟨m, hm⟩
  unfold moverFlag
  rw [if_pos hlen, hm]
  show decide (|c| = m) = true ↔ some m = some |c|
  simp only [decide_eq_true_eq, Option.some.injEq]
  constructor
  · intro h
    exact h.symm
  · intro h
    exact h.symm

/-- **C4 (amended)** (row-presence gate): whenever table construction
succeeds, the table has a row for a grid cell `(e, t)` iff the implied
series of the key has at least 5 observations at or before the
as-of-date; with exactly 5 points the row's 1-day change is defined while
the 1-week and 1-month changes are the undefined sentinel.  (When the
build raises — see C7 — no table and therefore no row exists, whatever
the series length.) -/
theorem row_presence_gate (vols : List VolObs) (rates : List RateObs)
    (asOf : ℕ) (e : String) (t : ℕ) (tbl : List TableRow)
    (he : e ∈ OPTION_TENORS) (ht : t ∈ SWAP_TENORS)
    (hok : buildSwaptionVolTable vols rates asOf = Except.ok tbl) :
    ((∃ r ∈ tbl, r.expiry = e ∧ r.tenor = t) ↔
      5 ≤ (seriesFor vols asOf e t).length) ∧
    ((seriesFor vols asOf e t).length = 5 →
      ∀ r ∈ tbl, r.expiry = e → r.tenor = t →
        r.ann1dChg.isSome = true ∧ r.ann1wChg = none ∧ r.ann1mChg = none) := by
  have htbl := eq_rows_of_ok vols rates asOf tbl hok
  subst htbl
  constructor
  · constructor
    · rintro ⟨r, hr, hre, hrt⟩
      rcases (mem_buildTableRows vols rates asOf r).mp hr with
        ⟨e2, t2, h5, _, _, rfl⟩
      rw [assembledRow_expiry] at hre
      rw [assembledRow_tenor] at hrt
      rw [← hre, ← hrt]
      exact h5
    · intro h5
      exact ⟨assembledRow vols rates asOf e t,
        (mem_buildTableRows vols rates asOf _).mpr
          ⟨e, t, h5, he, ht, rfl⟩,
        assembledRow_expiry vols rates asOf e t,
        assembledRow_tenor vols rates asOf e t⟩
  · intro hlen r hr hre hrt
    rcases (mem_buildTableRows vols rates asOf r).mp hr with
      ⟨e2, t2, h5, _, _, rfl⟩
    rw [assembledRow_expiry] at hre
    rw [assembledRow_tenor] at hrt
    subst hre
    subst hrt
    rw [assembledRow_ann1dChg, assembledRow_ann1wChg, assembledRow_ann1mChg]
    simp only [impliedRowOf]
    rw [hlen, if_pos (by omega), if_neg (by omega), if_neg (by omega)]
    exact ⟨rfl, rfl, rfl⟩

/-- Counterexample to C4 as stated: the grid cell `(1M, 2)` has 5
observations at/before date 4, yet the output contains no row for it —
there is no output table at all, because no rate tenor has `max(windows)`
observations and the merge raises. -/
theorem row_presence_counterexample :
    5 ≤ (seriesFor demoVols 4 "1M" 2).length ∧
    "1M" ∈ OPTION_TENORS ∧ (2 : ℕ) ∈ SWAP_TENORS ∧
    buildSwaptionVolTable demoVols demoRates100 4 =
      Except.error "KeyError: tenor" := by
  refine ⟨by with_unfolding_all decide, by decide, by decide, ?_⟩
  with_unfolding_all decide

/-- Witness for the amended C4: a successful build over a 5-point implied
series (dates 0–4) and a qualifying rate tenor. -/
theorem row_presence_gate_witness :
    buildSwaptionVolTable demoVols5 demoRates180 1000 =
      Except.ok (buildTableRows demoVols5 demoRates180 1000) ∧
    (seriesFor demoVols5 1000 "1M" 2).length = 5 ∧
    ((∃ r ∈ buildTableRows demoVols5 demoRates180 1000,
        r.expiry = "1M" ∧ r.tenor = 2) ↔
      5 ≤ (seriesFor demoVols5 1000 "1M" 2).length) := by
  have hok : buildSwaptionVolTable demoVols5 demoRates180 1000 =
      Except.ok (buildTableRows demoVols5 demoRates180 1000) :=
    buildSwaptionVolTable_ok demoVols5 demoRates180 1000
      (by with_unfolding_all decide) (by with_unfolding_all decide)
  exact ⟨hok, by with_unfolding_all decide,
    (row_presence_gate demoVols5 demoRates180 1000 "1M" 2 _
      (by decide) (by decide) hok).1⟩

/-- **C2** (mover tie rule): for every row of a successfully built table
and each detection that is evaluated (series length at least 21 for the
1-day/10-day detection, 26 for 1-week/20-day, 141 for 1-month/120-day),
the flag is true iff the absolute current period-change exactly equals the
maximum absolute period-change over the detection's trailing lookback
window of the instrument's own series — exact equality, so ties at the
maximum are all flagged. -/
theorem mover_tie_rule (vols : List VolObs) (rates : List RateObs)
    (asOf : ℕ) (tbl : List TableRow) (r : TableRow)
    (hok : buildSwaptionVolTable vols rates asOf = Except.ok tbl)
    (hr : r ∈ tbl) :
    (21 ≤ (seriesFor vols asOf r.expiry r.tenor).length →
      (r.is1dMover = true ↔
        pyMax (absChangesWindow (seriesFor vols asOf r.expiry r.tenor) 10 1) =
          some |nthQ (seriesFor vols asOf r.expiry r.tenor)
              ((seriesFor vols asOf r.expiry r.tenor).length - 1) -
            nthQ (seriesFor vols asOf r.expiry r.tenor)
              ((seriesFor vols asOf r.expiry r.tenor).length - 2)|)) ∧
    (26 ≤ (seriesFor vols asOf r.expiry r.tenor).length →
      (r.is1wMover = true ↔
        pyMax (absChangesWindow (seriesFor vols asOf r.expiry r.tenor) 20 5) =
          some |nthQ (seriesFor vols asOf r.expiry r.tenor)
              ((seriesFor vols asOf r.expiry r.tenor).length - 1) -
            nthQ (seriesFor vols asOf r.expiry r.tenor)
              ((seriesFor vols asOf r.expiry r.tenor).length - 6)|)) ∧
    (141 ≤ (seriesFor vols asOf r.expiry r.tenor).length →
      (r.is1mMover = true ↔
        pyMax (absChangesWindow (seriesFor vols asOf r.expiry r.tenor) 120 20) =
          some |nthQ (seriesFor vols asOf r.expiry r.tenor)
              ((seriesFor vols asOf r.expiry r.tenor).length - 1) -
            nthQ (seriesFor vols asOf r.expiry r.tenor)
              ((seriesFor vols asOf r.expiry r.tenor).length - 21)|)) := by
  have htbl := eq_rows_of_ok vols rates asOf tbl hok
  subst htbl
  rcases (mem_buildTableRows vols rates asOf r).mp hr with
    ⟨e, t, h5, _, _, rfl⟩
  rw [assembledRow_expiry, assembledRow_tenor]
  refine ⟨?_, ?_, ?_⟩
  · intro h21
    rw [assembledRow_is1d_of_long vols rates asOf e t h21]
    have hc : (impliedRowOf e t (seriesFor vols asOf e t)).ann1dChg =
        some (nthQ (seriesFor vols asOf e t)
            ((seriesFor vols asOf e t).length - 1) -
          nthQ (seriesFor vols asOf e t)
            ((seriesFor vols asOf e t).length - 2)) := by
      simp only [impliedRowOf]
      rw [if_pos (by omega)]
    rw [hc]
    exact moverFlag_true_iff _ 11 10 1 _ (by omega)
      (absChangesWindow_ne_nil _ 10 1 (by omega) (by omega))
  · intro h26
    rw [assembledRow_is1w_of_long vols rates asOf e t (by omega)]
    have hc : (impliedRowOf e t (seriesFor vols asOf e t)).ann1wChg =
        some (nthQ (seriesFor vols asOf e t)
            ((seriesFor vols asOf e t).length - 1) -
          nthQ (seriesFor vols asOf e t)
            ((seriesFor vols asOf e t).length - 6)) := by
      simp only [impliedRowOf]
      rw [if_pos (by omega)]
    rw [hc]
    exact moverFlag_true_iff _ 26 20 5 _ (by omega)
      (absChangesWindow_ne_nil _ 20 5 (by omega) (by omega))
  · intro h141
    rw [assembledRow_is1m_of_long vols rates asOf e t (by omega)]
    have hc : (impliedRowOf e t (seriesFor vols asOf e t)).ann1mChg =
        some (nthQ (seriesFor vols asOf e t)
            ((seriesFor vols asOf e t).length - 1) -
          nthQ (seriesFor vols asOf e t)
            ((seriesFor vols asOf e t).length - 21)) := by
      simp only [impliedRowOf]
      rw [if_pos (by omega)]
    rw [hc]
    exact moverFlag_true_iff _ 141 120 20 _ (by omega)
      (absChangesWindow_ne_nil _ 120 20 (by omega) (by omega))

/-- A 21-observation series for key `(1M, 2)`: flat at 0 and jumping to 5
on the final date, so the current 1-day change is the window maximum. -/
def demoVols21 : List VolObs :=
  (List.range 21).map (fun i => ⟨i, "1M", 2, if i = 20 then 5 else 0⟩)

/-- Witness for C2: the 1-day detection on the 21-point series, in a
build that completes (tenor 7 qualifies for realized metrics). -/
theorem mover_tie_rule_witness :
    buildSwaptionVolTable demoVols21 demoRates180 1000 =
      Except.ok (buildTableRows demoVols21 demoRates180 1000) ∧
    ∃ r ∈ buildTableRows demoVols21 demoRates180 1000,
      21 ≤ (seriesFor demoVols21 1000 r.expiry r.tenor).length ∧
      (r.is1dMover = true ↔
        pyMax (absChangesWindow (seriesFor demoVols21 1000 r.expiry r.tenor) 10 1) =
          some |nthQ (seriesFor demoVols21 1000 r.expiry r.tenor)
              ((seriesFor demoVols21 1000 r.expiry r.tenor).length - 1) -
            nthQ (seriesFor demoVols21 1000 r.expiry r.tenor)
              ((seriesFor demoVols21 1000 r.expiry r.tenor).length - 2)|) := by
  have hok : buildSwaptionVolTable demoVols21 demoRates180 1000 =
      Except.ok (buildTableRows demoVols21 demoRates180 1000) :=
    buildSwaptionVolTable_ok demoVols21 demoRates180 1000
      (by with_unfolding_all decide) (by with_unfolding_all decide)
  have hmem : assembledRow demoVols21 demoRates180 1000 "1M" 2 ∈
      buildTableRows demoVols21 demoRates180 1000 :=
    (mem_buildTableRows demoVols21 demoRates180 1000 _).mpr
      ⟨"1M", 2, by with_unfolding_all decide, by decide, by decide, rfl⟩
  have h21 : 21 ≤ (seriesFor demoVols21 1000
      (assembledRow demoVols21 demoRates180 1000 "1M" 2).expiry
      (assembledRow demoVols21 demoRates180 1000 "1M" 2).tenor).length := by
    rw [assembledRow_expiry, assembledRow_tenor]
    with_unfolding_all decide
  exact ⟨hok, assembledRow demoVols21 demoRates180 1000 "1M" 2, hmem, h21,
    (mover_tie_rule demoVols21 demoRates180 1000 _ _ hok hmem).1 h21⟩

/-- **C3 (amended)** (mover minimum-history gate): in a successfully
built table, each mover detection is evaluated exactly when the
instrument's history length meets the *code's* gate — at least 21 points
for the 1-day/10-day detection (the blanket `len(group) < 21` skip
dominates the detection's own 11-point minimum), 26 for the 1-week/20-day
detection, 141 for the 1-month/120-day detection — and each flag is false
whenever history is shorter; in particular an instrument with between 11
and 20 observations has its 1-day mover flag NOT evaluated (it stays
false). -/
theorem mover_min_history_gate (vols : List VolObs) (rates : List RateObs)
    (asOf : ℕ) (tbl : List TableRow) (r : TableRow)
    (hok : buildSwaptionVolTable vols rates asOf = Except.ok tbl)
    (hr : r ∈ tbl) :
    ((seriesFor vols asOf r.expiry r.tenor).length < 21 →
      r.is1dMover = false ∧ r.is1wMover = false ∧ r.is1mMover = false) ∧
    ((seriesFor vols asOf r.expiry r.tenor).length < 26 →
      r.is1wMover = false) ∧
    ((seriesFor vols asOf r.expiry r.tenor).length < 141 →
      r.is1mMover = false) ∧
    (21 ≤ (seriesFor vols asOf r.expiry r.tenor).length →
      r.is1dMover = moverFlag (seriesFor vols asOf r.expiry r.tenor) 11 10 1
        r.ann1dChg) ∧
    (26 ≤ (seriesFor vols asOf r.expiry r.tenor).length →
      r.is1wMover = moverFlag (seriesFor vols asOf r.expiry r.tenor) 26 20 5
        r.ann1wChg) ∧
    (141 ≤ (seriesFor vols asOf r.expiry r.tenor).length →
      r.is1mMover = moverFlag (seriesFor vols asOf r.expiry r.tenor) 141 120 20
        r.ann1mChg) := by
  have htbl := eq_rows_of_ok vols rates asOf tbl hok
  subst htbl
  rcases (mem_buildTableRows vols rates asOf r).mp hr with
    ⟨e, t, h5, _, _, rfl⟩
  rw [assembledRow_expiry, assembledRow_tenor, assembledRow_ann1dChg,
    assembledRow_ann1wChg, assembledRow_ann1mChg]
  refine ⟨?_, ?_, ?_, ?_, ?_, ?_⟩
  · intro hlt
    exact assembledRow_flags_of_short vols rates asOf e t hlt
  · intro hlt
    by_cases h21 : 21 ≤ (seriesFor vols asOf e t).length
    · rw [assembledRow_is1w_of_long vols rates asOf e t h21]
      exact moverFlag_false_of_short _ 26 20 5 _ (by omega)
    · exact (assembledRow_flags_of_short vols rates asOf e t (by omega)).2.1
  · intro hlt
    by_cases h21 : 21 ≤ (seriesFor vols asOf e t).length
    · rw [assembledRow_is1m_of_long vols rates asOf e t h21]
      exact moverFlag_false_of_short _ 141 120 20 _ (by omega)
    · exact (assembledRow_flags_of_short vols rates asOf e t (by omega)).2.2
  · intro h21
    exact assembledRow_is1d_of_long vols rates asOf e t h21
  · intro h26
    exact assembledRow_is1w_of_long vols rates asOf e t (by omega)
  · intro h141
    exact assembledRow_is1m_of_long vols rates asOf e t (by omega)

/-- An 11-observation series for key `(1M, 2)`: flat at 0 and jumping to 5
on the final date.  Per the spec, 11 points suffice to evaluate the 1-day
detection; per the code, the blanket 21-point gate skips it. -/
def demoVols11 : List VolObs :=
  (List.range 11).map (fun i => ⟨i, "1M", 2, if i = 10 then 5 else 0⟩)

/-- Counterexample to C3 as stated, at an input on which the build
completes (tenor 7 qualifies for realized metrics): a `(1M, 2)`
instrument with exactly 11 observations, whose current 1-day change is
the maximum of its 10-day lookback window (so an evaluated detection
would flag it — the detection verdict `moverFlag` with the spec's
11-point minimum is true), yet the built table emits its row with the
1-day mover flag false, because `add_highlighting_flags` skips every
group shorter than 21 rows. -/
theorem mover_min_history_counterexample :
    (seriesFor demoVols11 1000 "1M" 2).length = 11 ∧
    moverFlag (seriesFor demoVols11 1000 "1M" 2) 11 10 1
      ((impliedRowOf "1M" 2 (seriesFor demoVols11 1000 "1M" 2)).ann1dChg) = true ∧
    buildSwaptionVolTable demoVols11 demoRates180 1000 =
      Except.ok (buildTableRows demoVols11 demoRates180 1000) ∧
    (∃ r ∈ buildTableRows demoVols11 demoRates180 1000,
      r.expiry = "1M" ∧ r.tenor = 2) ∧
    (∀ r ∈ buildTableRows demoVols11 demoRates180 1000,
      r.is1dMover = false) := by
  refine ⟨by with_unfolding_all decide, by with_unfolding_all decide,
    buildSwaptionVolTable_ok demoVols11 demoRates180 1000
      (by with_unfolding_all decide) (by with_unfolding_all decide), ?_, ?_⟩
  · exact ⟨assembledRow demoVols11 demoRates180 1000 "1M" 2,
      (mem_buildTableRows demoVols11 demoRates180 1000 _).mpr
        ⟨"1M", 2, by with_unfolding_all decide, by decide, by decide, rfl⟩,
      assembledRow_expiry _ _ _ _ _, assembledRow_tenor _ _ _ _ _⟩
  · with_unfolding_all decide

/-- Witness for the amended C3: the 11-point instrument's row is present
in a completed build with all flags false (its series is shorter than
21). -/
theorem mover_min_history_gate_witness :
    buildSwaptionVolTable demoVols11 demoRates180 1000 =
      Except.ok (buildTableRows demoVols11 demoRates180 1000) ∧
    ∃ r ∈ buildTableRows demoVols11 demoRates180 1000,
      (seriesFor demoVols11 1000 r.expiry r.tenor).length < 21 ∧
      r.is1dMover = false ∧ r.is1wMover = false ∧ r.is1mMover = false := by
  have hok : buildSwaptionVolTable demoVols11 demoRates180 1000 =
      Except.ok (buildTableRows demoVols11 demoRates180 1000) :=
    buildSwaptionVolTable_ok demoVols11 demoRates180 1000
      (by with_unfolding_all decide) (by with_unfolding_all decide)
  have hmem : assembledRow demoVols11 demoRates180 1000 "1M" 2 ∈
      buildTableRows demoVols11 demoRates180 1000 :=
    (mem_buildTableRows demoVols11 demoRates180 1000 _).mpr
      ⟨"1M", 2, by with_unfolding_all decide, by decide, by decide, rfl⟩
  have hlt : (seriesFor demoVols11 1000
      (assembledRow demoVols11 demoRates180 1000 "1M" 2).expiry
      (assembledRow demoVols11 demoRates180 1000 "1M" 2).tenor).length < 21 := by
    rw [assembledRow_expiry, assembledRow_tenor]
    with_unfolding_all decide
  exact ⟨hok, assembledRow demoVols11 demoRates180 1000 "1M" 2, hmem, hlt,
    (mover_min_history_gate demoVols11 demoRates180 1000 _ _ hok hmem).1 hlt⟩
